import Mathlib

/-!
Verification development for the rotation-fair assignment engine of
`auto-assignment.py`.  The Python source is shallowly embedded: pandas
DataFrames become lists of records/structures, date values are modelled
exactly (Gregorian calendar, day arithmetic), Python floats are modelled as
exact rationals, and the interactive prompt loop is modelled as a function
of the operator's input stream.  All definitions are executable.
-/

/-! ### Character and string primitives

Python string operations (`.strip()`, `.upper()`, `.lower()`, slicing,
`<` comparison) are modelled over `String.data` (a `List Char`), so that
every definition reduces inside the kernel.  `.upper()`/`.lower()` are
modelled on the ASCII range, which covers every cell value the engine
compares ("YES", "NO", "V", "M", "skip", digits).
-/

/-- ASCII uppercase of one character (models Python `str.upper` on the
characters actually compared by the engine). -/
def charUpperAscii (c : Char) : Char :=
  if 'a' ≤ c ∧ c ≤ 'z' then Char.ofNat (c.toNat - 32) else c

/-- ASCII lowercase of one character. -/
def charLowerAscii (c : Char) : Char :=
  if 'A' ≤ c ∧ c ≤ 'Z' then Char.ofNat (c.toNat + 32) else c

/-- Models Python `str.upper()`. -/
def strUpper (s : String) : String := ⟨s.data.map charUpperAscii⟩

/-- Models Python `str.lower()`. -/
def strLower (s : String) : String := ⟨s.data.map charLowerAscii⟩

/-- Whitespace characters removed by Python `str.strip()`. -/
def isPySpace (c : Char) : Bool :=
  c == ' ' || c == '\t' || c == '\n' || c == '\r' || c == '\x0b' || c == '\x0c'

/-- Models Python `str.strip()`. -/
def strStrip (s : String) : String :=
  ⟨((s.data.dropWhile isPySpace).reverse.dropWhile isPySpace).reverse⟩

/-- Models Python `str.endswith(suffix)`. -/
def strEndsWithSuffix (s suffix : String) : Bool :=
  List.isSuffixOf suffix.data s.data

/-- Models Python slicing `s[:-n]` (drop the last `n` characters). -/
def strDropRightN (s : String) (n : Nat) : String :=
  ⟨s.data.take (s.data.length - n)⟩

/-- Split a string on a single separator character (the separators used by
the accepted date formats are `-` and `/`). -/
def splitCharAux (sep : Char) : List Char → List Char → List (List Char)
  | [], acc => [acc.reverse]
  | c :: rest, acc =>
    if c == sep then acc.reverse :: splitCharAux sep rest []
    else splitCharAux sep rest (c :: acc)

/-- Split a string on a separator character. -/
def splitOnSep (sep : Char) (s : String) : List String :=
  (splitCharAux sep s.data []).map (fun l => ⟨l⟩)

/-- Numeric value of a list of ASCII digits. -/
def digitsToNat (l : List Char) : Nat :=
  l.foldl (fun a c => 10 * a + (c.toNat - 48)) 0

/-- Models `int(s)` restricted to plain digit strings (the only decimal
numerals the selection prompt needs; any other text makes the prompt loop
re-prompt, which is what a `none` result produces here). -/
def parseIntDigits (s : String) : Option Nat :=
  if !s.data.isEmpty && s.data.all Char.isDigit then some (digitsToNat s.data)
  else none

/-- Python string `<` (lexicographic by code point); pandas `sort_values`
on a column of `AssignmentDate` strings orders rows by this relation. -/
def charListLt : List Char → List Char → Bool
  | [], [] => false
  | [], _ :: _ => true
  | _ :: _, [] => false
  | a :: as, b :: bs =>
    if a.toNat < b.toNat then true
    else if b.toNat < a.toNat then false
    else charListLt as bs

/-- Python string `<` on `String`. -/
def strLtPy (a b : String) : Bool := charListLt a.data b.data

/-- Maximum of two strings under Python string order. -/
def strMaxPy (a b : String) : String := if strLtPy a b then b else a

/-! ### Dates

`datetime.date` values are modelled as year/month/day triples together with
an exact day-number function (`Date.toDays`), so that Python's
`(d2 - d1).days` is `toDays d2 - toDays d1`.
-/

/-- A calendar date as produced by `datetime.date`. -/
structure Date where
  year : Nat
  month : Nat
  day : Nat
deriving DecidableEq

/-- Gregorian leap-year rule (as implemented by `datetime`). -/
def Date.isLeapYear (y : Nat) : Bool :=
  (y % 4 == 0 && y % 100 != 0) || y % 400 == 0

/-- Days in the months preceding month `m` of year `y`. -/
def Date.daysBeforeMonth (y m : Nat) : Nat :=
  let base :=
    match m with
    | 1 => 0 | 2 => 31 | 3 => 59 | 4 => 90 | 5 => 120 | 6 => 151
    | 7 => 181 | 8 => 212 | 9 => 243 | 10 => 273 | 11 => 304 | _ => 334
  if 3 ≤ m ∧ Date.isLeapYear y = true then base + 1 else base

/-- Day number of a date (proleptic Gregorian ordinal, as used by
`datetime.date.toordinal`); differences of `toDays` equal Python's
`(d2 - d1).days`. -/
def Date.toDays (dt : Date) : Nat :=
  let y := dt.year - 1
  365 * y + y / 4 - y / 100 + y / 400 + Date.daysBeforeMonth dt.year dt.month + dt.day

/-- Length of month `m` in year `y` (what `datetime(y, m, d)` validates
`d` against). -/
def daysInMonth (y m : Nat) : Nat :=
  if m == 2 then (if Date.isLeapYear y then 29 else 28)
  else if m == 4 || m == 6 || m == 9 || m == 11 then 30
  else 31

/-! ### `parse_date_str`

`parse_date_str` tries `strptime` with formats `%Y-%m-%d`, `%d/%m/%Y`,
`%m/%d/%Y` in that order and returns `None` when all fail.  CPython's
`%Y` matches exactly four digits, `%m`/`%d` match one or two digits within
range, and `datetime(...)` then validates the calendar combination; those
checks are reproduced below.  (The source also accepts a `datetime`
instance unchanged; the ledger model stores only the strings the program
itself reads and writes, so only the string case is embedded.)
-/

/-- A `%d` token: one or two digits with value 1..31. -/
def dayTok (s : String) : Option Nat :=
  if !s.data.isEmpty && s.data.all Char.isDigit && decide (s.data.length ≤ 2) then
    let v := digitsToNat s.data
    if decide (1 ≤ v) && decide (v ≤ 31) then some v else none
  else none

/-- A `%m` token: one or two digits with value 1..12. -/
def monthTok (s : String) : Option Nat :=
  if !s.data.isEmpty && s.data.all Char.isDigit && decide (s.data.length ≤ 2) then
    let v := digitsToNat s.data
    if decide (1 ≤ v) && decide (v ≤ 12) then some v else none
  else none

/-- A `%Y` token: exactly four digits. -/
def yearTok (s : String) : Option Nat :=
  if s.data.all Char.isDigit && decide (s.data.length = 4) then
    some (digitsToNat s.data)
  else none

/-- Final calendar validation performed by the `datetime` constructor
(year at least `MINYEAR = 1`, day within the month). -/
def mkValidDate (y m d : Nat) : Option Date :=
  if decide (1 ≤ y) && decide (d ≤ daysInMonth y m) then some ⟨y, m, d⟩ else none

/-- `strptime(s, "%Y-%m-%d")`. -/
def tryFormatYMD (s : String) : Option Date :=
  match splitOnSep '-' s with
  | [ys, ms, ds] => do
    let y ← yearTok ys
    let m ← monthTok ms
    let d ← dayTok ds
    mkValidDate y m d
  | _ => none

/-- `strptime(s, "%d/%m/%Y")`. -/
def tryFormatDMY (s : String) : Option Date :=
  match splitOnSep '/' s with
  | [ds, ms, ys] => do
    let y ← yearTok ys
    let m ← monthTok ms
    let d ← dayTok ds
    mkValidDate y m d
  | _ => none

/-- `strptime(s, "%m/%d/%Y")`. -/
def tryFormatMDY (s : String) : Option Date :=
  match splitOnSep '/' s with
  | [ms, ds, ys] => do
    let y ← yearTok ys
    let m ← monthTok ms
    let d ← dayTok ds
    mkValidDate y m d
  | _ => none

/-- `parse_date_str` (source lines 37-46): try the three formats in order,
`None` when all fail — a soft failure, never an exception. -/
def parse_date_str (s : String) : Option Date :=
  match tryFormatYMD s with
  | some dt => some dt
  | none =>
    match tryFormatDMY s with
    | some dt => some dt
    | none => tryFormatMDY s

example : parse_date_str "2024-03-05" = some ⟨2024, 3, 5⟩ := by decide
example : parse_date_str "05/03/2024" = some ⟨2024, 3, 5⟩ := by decide
example : parse_date_str "05/13/2024" = some ⟨2024, 5, 13⟩ := by decide
example : parse_date_str "zz" = none := by decide
example : parse_date_str "30/02/2024" = none := by decide

/-! ### Role configuration and the ledger

The assignment ledger (`AssignmentHistory` sheet) is a list of immutable
records.  `AssignmentDate` is kept as the raw text the program reads and
writes: `add_history` always writes `%d/%m/%Y` strings and pandas
round-trips them as text, so the steady-state column is a string column,
and `sort_values("AssignmentDate")` orders it lexicographically.
-/

/-- `SMM_SUBPARTS` (source lines 7-13). -/
def SMM_SUBPARTS : List String :=
  ["Discurso", "Haga Revisitas", "Empiece conversaciones", "Haga discípulos",
   "Explique sus creencias"]

/-- `SPECIALIZED_PARTS` (source lines 15-18): `"Lectura"` plus the SMM
subparts. -/
def SPECIALIZED_PARTS : List String := "Lectura" :: SMM_SUBPARTS

/-- `strip_sala_b_suffix` (source lines 24-27). -/
def strip_sala_b_suffix (part_key : String) : String :=
  if strEndsWithSuffix part_key " Sala B" then strStrip (strDropRightN part_key 7)
  else part_key

/-- `is_smm_subpart` (source lines 29-31). -/
def is_smm_subpart (part_key : String) : Bool :=
  SMM_SUBPARTS.contains (strip_sala_b_suffix part_key)

/-- One row of the `AssignmentHistory` sheet. -/
structure HistoryRecord where
  name : String
  part : String
  assignmentDate : String
deriving DecidableEq

/-- The ledger: the `AssignmentHistory` DataFrame as a list of rows. -/
abbrev HistoryDF := List HistoryRecord

/-- The sentinel `datetime(1900,1,1).date()` used when no record exists. -/
def sentinel_date : Date := ⟨1900, 1, 1⟩

/-- Lexicographically greatest string of a list (what
`sort_values(ascending=False)` followed by `iloc[0]` selects from a string
column). -/
def latestDateStr : List String → Option String
  | [] => none
  | d :: rest =>
    match latestDateStr rest with
    | none => some d
    | some m => some (strMaxPy d m)

/-- The repeated scan pattern of the ledger lookups (source lines 86-91,
108-113, 119-123): sort the rows of interest by the raw `AssignmentDate`
string, take the top row, parse its date, and fall back to the sentinel
when the set is empty or the top row fails to parse. -/
def scan_records (sub : List HistoryRecord) : Date :=
  if sub.isEmpty then sentinel_date
  else
    match latestDateStr (sub.map (fun r => r.assignmentDate)) with
    | none => sentinel_date
    | some top => (parse_date_str top).getD sentinel_date

/-- `get_unified_smm_last_date` (source lines 77-91). -/
def get_unified_smm_last_date (df_history : HistoryDF) (person_name : String) : Date :=
  let all_rows := df_history.filter (fun r => r.name == person_name)
  if all_rows.isEmpty then sentinel_date
  else scan_records (all_rows.filter (fun r => SMM_SUBPARTS.contains (strip_sala_b_suffix r.part)))

/-- `weeks_since_assignment` (source lines 93-94): `(current - last).days / 7.0`,
the float division modelled as the exact rational. -/
def weeks_since_assignment (last_date current_date : Date) : ℚ :=
  (((Date.toDays current_date : ℤ) - (Date.toDays last_date : ℤ) : ℤ) : ℚ) / 7

/-- `get_last_assignment_date` (source lines 96-123). -/
def get_last_assignment_date (df_history : HistoryDF) (person_name part_key : String) : Date :=
  let base := strip_sala_b_suffix part_key
  if SMM_SUBPARTS.contains base then get_unified_smm_last_date df_history person_name
  else if base == "Lectura" then
    let sub := df_history.filter (fun r => r.name == person_name)
    if sub.isEmpty then sentinel_date
    else scan_records (sub.filter (fun r => strip_sala_b_suffix r.part == "Lectura"))
  else
    scan_records (df_history.filter (fun r => r.name == person_name && r.part == part_key))

/-- The fairness-groups induced by `get_last_assignment_date`: the unified
SMM group, the unified Lectura group, or a singleton group keyed by the
exact raw role key. -/
inductive FairnessGroup where
  | smm : FairnessGroup
  | lectura : FairnessGroup
  | direct : String → FairnessGroup
deriving DecidableEq

/-- Whether a ledger record's raw role key belongs to a fairness-group. -/
def in_fairness_group (g : FairnessGroup) (part : String) : Bool :=
  match g with
  | .smm => SMM_SUBPARTS.contains (strip_sala_b_suffix part)
  | .lectura => strip_sala_b_suffix part == "Lectura"
  | .direct k => part == k

/-- The fairness-group of a raw role key (the grouping applied by the
branches of `get_last_assignment_date`). -/
def fairness_group (part_key : String) : FairnessGroup :=
  let base := strip_sala_b_suffix part_key
  if SMM_SUBPARTS.contains base then .smm
  else if base == "Lectura" then .lectura
  else .direct part_key

/-- The spec's `mostRecentDate(person, fairnessGroupKey)` as realised by the
code: one uniform scan over the person's records of the group (proved equal
to `get_last_assignment_date` below). -/
def mostRecentDate (df_history : HistoryDF) (person_name : String) (g : FairnessGroup) : Date :=
  scan_records (df_history.filter (fun r => r.name == person_name && in_fairness_group g r.part))

/-- Modelled from the spec: "scans all history records for that person whose
raw role key normalizes into the same fairness-group; returns the maximum
date; returns a fixed sentinel date far in the past if no record exists",
with an unparseable record treated as "ignore this record".  This is the
specification-side definition, kept to compare against the code's
string-sorting implementation. -/
def specMostRecentDate (df_history : HistoryDF) (person_name : String) (g : FairnessGroup) : Date :=
  let parsed := (df_history.filter
      (fun r => r.name == person_name && in_fairness_group g r.part)).filterMap
      (fun r => parse_date_str r.assignmentDate)
  parsed.foldl (fun acc d => if Date.toDays acc < Date.toDays d then d else acc) sentinel_date

/-! ### Roster, scorer, and ranker

A roster row keeps the person's name (`Hermano`), the text cells consulted
with `row.get(col, default)` (activation flag, gender, eligibility
columns), and the numeric `<column> Mod` weights.  The DataFrame's set of
present `Mod` columns is part of the roster, because the source defaults
the modifier on **column** absence (`if mod_col in df_people.columns`).
In this layer every cell of a present `Mod` column is numeric; a blank
cell of a present column (a pandas NaN, giving a NaN score in the source)
is modelled by the float-level `PersonNaN`/`compute_score_float` layer
defined further below. -/

/-- One row of the `people` sheet. -/
structure Person where
  hermano : String
  cells : List (String × String)
  modVal : String → ℚ

/-- The `people` DataFrame: its rows in iteration order plus the set of
`... Mod` columns present in the sheet. -/
structure Roster where
  people : List Person
  modCols : List String

/-- `row.get(col, default)` over the modelled text cells. -/
def cellGetD (row : Person) (col dflt : String) : String :=
  (row.cells.lookup col).getD dflt

/-- The `Activo?` check (source line 158). -/
def active_ok (row : Person) : Bool :=
  strUpper (cellGetD row "Activo?" "NO") == "YES"

/-- The gender check (source lines 163-165).  Python tests the truthiness of
`required_gender`, so an empty string behaves like no constraint. -/
def gender_ok (required_gender : Option String) (row : Person) : Bool :=
  match required_gender with
  | none => true
  | some g => g == "" || strUpper (cellGetD row "Género" "") == strUpper g

/-- The eligibility-column check (source line 167). -/
def elig_ok (col_name : String) (row : Person) : Bool :=
  strUpper (cellGetD row col_name "NO") == "YES"

/-- The filter pipeline of `get_top_candidates` (source lines 157-169), in
the source's order: active, not already assigned, gender, eligibility. -/
def passes_filters (assigned_so_far : List String) (required_gender : Option String)
    (col_name : String) (row : Person) : Bool :=
  active_ok row && !(assigned_so_far.contains row.hermano)
    && gender_ok required_gender row && elig_ok col_name row

/-- `get_people_column_for_part` (source lines 129-133). -/
def get_people_column_for_part (part_key : String) : String :=
  let base := strip_sala_b_suffix part_key
  if SPECIALIZED_PARTS.contains base then "Estudiante" else base

/-- The modifier lookup of `compute_score_and_lastdate` (source lines
144-145): the person's weight for the eligibility column when the sheet has
that `Mod` column, else the default `1.0`. -/
def modifier (df_people : Roster) (row : Person) (col_name : String) : ℚ :=
  if df_people.modCols.contains (col_name ++ " Mod") then row.modVal (col_name ++ " Mod")
  else 1

/-- `compute_score_and_lastdate` (source lines 139-147), with the roster row
passed directly instead of its positional index. -/
def compute_score_and_lastdate (df_people : Roster) (df_history : HistoryDF)
    (row : Person) (part_key : String) (meeting_date : Date) : ℚ × Date :=
  let name := row.hermano
  let last_date := get_last_assignment_date df_history name part_key
  let wks := weeks_since_assignment last_date meeting_date
  let col_name := get_people_column_for_part part_key
  let mod_val := modifier df_people row col_name
  (wks * mod_val, last_date)

/-- A scored candidate: the `(idx, score, last_date)` triple of the source
with the roster row in place of the index. -/
structure Cand where
  person : Person
  score : ℚ
  lastDate : Date

/-- Insertion step of the stable descending sort.  `x` precedes the first
element whose score does not exceed `x`'s, so earlier-roster elements stay
ahead of equal-scored later ones — the behaviour of Python's stable
`list.sort(key=score, reverse=True)`. -/
def insDesc (x : Cand) : List Cand → List Cand
  | [] => [x]
  | y :: ys => if x.score ≥ y.score then x :: y :: ys else y :: insDesc x ys

/-- Stable descending-by-score sort (models `scored.sort(key=lambda x:
x[1], reverse=True)`, source line 179). -/
def sortScoredDesc : List Cand → List Cand
  | [] => []
  | x :: xs => insDesc x (sortScoredDesc xs)

/-- The roster rows surviving the filter pipeline, in iteration order
(`valid_idx`, source lines 156-169). -/
def valid_candidates (df_people : Roster) (part_key : String)
    (assigned_so_far : List String) (required_gender : Option String) : List Person :=
  df_people.people.filter
    (passes_filters assigned_so_far required_gender (get_people_column_for_part part_key))

/-- The scored candidates in roster iteration order (`scored`, source lines
174-177). -/
def scored_candidates (df_people : Roster) (df_history : HistoryDF) (part_key : String)
    (meeting_date : Date) (assigned_so_far : List String)
    (required_gender : Option String) : List Cand :=
  (valid_candidates df_people part_key assigned_so_far required_gender).map
    (fun row =>
      let sld := compute_score_and_lastdate df_people df_history row part_key meeting_date
      ⟨row, sld.1, sld.2⟩)

/-- `get_top_candidates` (source lines 153-180). -/
def get_top_candidates (df_people : Roster) (df_history : HistoryDF) (part_key : String)
    (meeting_date : Date) (assigned_so_far : List String) (top_n : Nat)
    (required_gender : Option String) : List Cand :=
  if (valid_candidates df_people part_key assigned_so_far required_gender).isEmpty then []
  else
    (sortScoredDesc
      (scored_candidates df_people df_history part_key meeting_date assigned_so_far
        required_gender)).take top_n

/-! ### Selection protocol, ledger append, and the per-date slot loop -/

/-- The validation loop of `pick_candidate_interactively` (source lines
234-245), as a function of the operator's input stream.  Each consumed
input corresponds to one prompt; the second component counts the prompts
issued.  An exhausted stream yields `none` (the real loop would still be
blocked waiting for input; no selection has been made). -/
def pick_loop (top_candidates : List Cand) (max_count : Nat) :
    List String → Option String × Nat
  | [] => (none, 0)
  | inp :: rest =>
    let choice := strLower (strStrip inp)
    if choice == "skip" then (none, 1)
    else
      match parseIntDigits choice with
      | some cnum =>
        if 1 ≤ cnum ∧ cnum ≤ max_count then
          ((top_candidates.get? (cnum - 1)).map (fun c => c.person.hermano), 1)
        else
          let r := pick_loop top_candidates max_count rest
          (r.1, r.2 + 1)
      | none =>
        let r := pick_loop top_candidates max_count rest
        (r.1, r.2 + 1)

/-- `pick_candidate_interactively` (source lines 206-245), restricted to its
decision behaviour: empty candidate list returns `None` before any prompt;
otherwise the loop accepts an index in `1..min(top_n, len(candidates))` or
`skip`.  Display-only arguments of the source are omitted. -/
def pick_candidate_interactively (top_candidates : List Cand) (top_n : Nat)
    (inputs : List String) : Option String × Nat :=
  if top_candidates.isEmpty then (none, 0)
  else pick_loop top_candidates (min top_n top_candidates.length) inputs

/-- Zero-pad a number to two digits, as `strftime` does for `%d` and `%m`. -/
def pad2 (n : Nat) : String := if n < 10 then "0" ++ toString n else toString n

/-- `mtg_date.strftime("%d/%m/%Y")` (for the four-digit years this engine
handles). -/
def format_dmy (d : Date) : String :=
  pad2 d.day ++ "/" ++ pad2 d.month ++ "/" ++ toString d.year

/-- `add_history` (source lines 251-259): append one immutable record whose
date is written in the `%d/%m/%Y` encoding. -/
def add_history (df_history : HistoryDF) (hermano_name part_key : String)
    (mtg_date : Date) : HistoryDF :=
  df_history ++ [⟨hermano_name, part_key, format_dmy mtg_date⟩]

/-- One slot to resolve on a meeting date: the effective raw role key, the
`top_n` passed to the ranker, the gender constraint, and the operator input
stream answered to this slot's prompt. -/
structure SlotReq where
  part_key : String
  top_n : Nat
  required_gender : Option String
  inputs : List String

/-- The outcome of one slot: the ranked candidates that were offered and
the chosen name (`none` leaves the output cell blank). -/
structure SlotResult where
  candidates : List Cand
  chosen : Option String

/-- The per-slot resolution loop of `main_assignment` for one meeting date
(source lines 366-377 and each analogous block): starting from
`assigned_today = set()`, each slot ranks candidates excluding
`assigned_today`, resolves the choice interactively, and on success adds
the name to `assigned_today` and appends the ledger record.  Slot
activation and sub-part inference happen before this loop and are given by
the `SlotReq` list. -/
def run_slots (df_people : Roster) (mtg_date : Date) :
    List SlotReq → HistoryDF → List String → List SlotResult
  | [], _, _ => []
  | slot :: rest, df_history, assigned_today =>
    let cands := get_top_candidates df_people df_history slot.part_key mtg_date
        assigned_today slot.top_n slot.required_gender
    match (pick_candidate_interactively cands slot.top_n slot.inputs).1 with
    | some chosen =>
      ⟨cands, some chosen⟩ ::
        run_slots df_people mtg_date rest
          (add_history df_history chosen slot.part_key mtg_date) (chosen :: assigned_today)
    | none => ⟨cands, none⟩ :: run_slots df_people mtg_date rest df_history assigned_today

/-! ### Concrete data used by witnesses and counterexamples -/

/-- Scenario B ledger: Carlos did "Discurso" three weeks before 2024-03-12
and "Haga Revisitas" one week before it; both raw keys are in the SMM
fairness-group, and both dates are written the way `add_history` writes
them. -/
def carlos_history : HistoryDF :=
  [⟨"Carlos", "Discurso", "20/02/2024"⟩, ⟨"Carlos", "Haga Revisitas", "05/03/2024"⟩]

/-- A one-record ledger for the append-monotonicity counterexample. -/
def h3_history : HistoryDF := [⟨"P", "Presidencia", "05/03/2024"⟩]

/-- A ledger whose lexicographically greatest date string is unparseable
while an earlier record parses fine. -/
def h7_history : HistoryDF :=
  [⟨"P", "Presidencia", "zz"⟩, ⟨"P", "Presidencia", "05/03/2024"⟩]

/-- An active roster row eligible for "Presidencia", with no weights. -/
def ana_person : Person :=
  ⟨"Ana", [("Activo?", "YES"), ("Presidencia", "YES")], fun _ => 1⟩

/-- A one-person roster with no `Mod` columns. -/
def wit_roster : Roster := ⟨[ana_person], []⟩

/-- The candidate entry produced for `ana_person` at meeting date
1900-01-08 (one week after the sentinel, so the score is `7/7 × 1`). -/
def wit4_cand : Cand :=
  ⟨ana_person, weeks_since_assignment sentinel_date ⟨1900, 1, 8⟩ * 1, sentinel_date⟩

/-- A roster row with a negative "Presidencia Mod" weight. -/
def neg_person : Person :=
  ⟨"Neg", [("Activo?", "YES"), ("Presidencia", "YES")], fun _ => -1⟩

/-- A roster whose sheet has the "Presidencia Mod" column. -/
def neg_roster : Roster := ⟨[neg_person], ["Presidencia Mod"]⟩

/-- An empty roster. -/
def empty_roster : Roster := ⟨[], []⟩

/-- A slot request used by the orchestrator witnesses. -/
def wit_slot : SlotReq := ⟨"Presidencia", 3, none, ["1"]⟩

/-! ### The modifier cell at float level

`compute_score_and_lastdate` reads the weight with
`df_people.at[idx, mod_col] if mod_col in df_people.columns else 1.0` and
multiplies with `float(mod_val)`.  The default is applied on **column**
absence only: when the `<col> Mod` column is present but the person's own
cell is blank, pandas yields a float NaN, `float(NaN)` is NaN, and the
score is NaN — not `weeks × 1.0`.  The definitions below embed that read
faithfully: a person's weight cell is `Option ℚ` (`none` = blank cell) and
the computed value lives in `PyFloat`, whose `nan` value absorbs
multiplication exactly as IEEE NaN does. -/

/-- A Python float as this computation produces it: an exact numeric value
or NaN. -/
inductive PyFloat where
  | num : ℚ → PyFloat
  | nan : PyFloat
deriving DecidableEq

/-- Float multiplication: NaN absorbs, numeric values multiply exactly. -/
def PyFloat.mul : PyFloat → PyFloat → PyFloat
  | num a, num b => num (a * b)
  | _, _ => nan

/-- A roster row whose weight cells may be blank: `modCell col = none`
models an empty cell of a present `Mod` column (a pandas NaN). -/
structure PersonNaN where
  hermano : String
  cells : List (String × String)
  modCell : String → Option ℚ

/-- The `people` DataFrame over `PersonNaN` rows. -/
structure RosterNaN where
  people : List PersonNaN
  modCols : List String

/-- The modifier read of source lines 144-146 at float level:
`1.0` when the sheet lacks the `Mod` column; the person's numeric cell when
present; NaN when the column is present but the person's cell is blank. -/
def modifier_float (df_people : RosterNaN) (row : PersonNaN) (col_name : String) : PyFloat :=
  if df_people.modCols.contains (col_name ++ " Mod") then
    match row.modCell (col_name ++ " Mod") with
    | some q => .num q
    | none => .nan
  else .num 1

/-- `compute_score_and_lastdate` (source lines 139-147) with the modifier
cell read at float level, so a blank cell's NaN propagates into the
score. -/
def compute_score_float (df_people : RosterNaN) (df_history : HistoryDF)
    (row : PersonNaN) (part_key : String) (meeting_date : Date) : PyFloat × Date :=
  let name := row.hermano
  let last_date := get_last_assignment_date df_history name part_key
  let wks := weeks_since_assignment last_date meeting_date
  let col_name := get_people_column_for_part part_key
  let mod_val := modifier_float df_people row col_name
  (PyFloat.mul (.num wks) mod_val, last_date)

/-- Blanca is active and eligible for "Presidencia" but every one of her
weight cells is blank: she has no explicit weight for any column. -/
def blank_mod_person : PersonNaN :=
  ⟨"Blanca", [("Activo?", "YES"), ("Presidencia", "YES")], fun _ => none⟩

/-- A sheet that *has* the "Presidencia Mod" column (Blanca's cell in it is
blank). -/
def blank_mod_roster : RosterNaN := ⟨[blank_mod_person], ["Presidencia Mod"]⟩

/-- The same row on a sheet with no `Mod` columns at all. -/
def plain_nan_roster : RosterNaN := ⟨[blank_mod_person], []⟩

/-! ### Helper lemmas -/

theorem filterFilter {α : Type} (p q : α → Bool) (l : List α) :
    (l.filter p).filter q = l.filter (fun a => p a && q a) := by
  induction l with
  | nil => rfl
  | cons x xs ih =>
    cases hp : p x <;> cases hq : q x <;>
      simp [List.filter_cons, hp, hq, ih]

theorem latestDateStr_mem {l : List String} {m : String}
    (h : latestDateStr l = some m) : m ∈ l := by
  induction l generalizing m with
  | nil => simp [latestDateStr] at h
  | cons d rest ih =>
    rw [latestDateStr] at h
    cases hrest : latestDateStr rest with
    | none => rw [hrest] at h; simp at h; simp [h]
    | some m' =>
      rw [hrest] at h
      simp only [Option.some.injEq] at h
      unfold strMaxPy at h
      by_cases hlt : strLtPy d m' = true
      · rw [if_pos hlt] at h; subst h; exact List.mem_cons_of_mem _ (ih hrest)
      · rw [if_neg hlt] at h; subst h; exact List.mem_cons_self _ _

/-- Fusing the two-stage filter of the SMM/Lectura branches with their
early-exit on the person having no records at all. -/
theorem scan_outer_collapse (l : List HistoryRecord) (p q : HistoryRecord → Bool) :
    (if (l.filter p).isEmpty then sentinel_date else scan_records ((l.filter p).filter q))
      = scan_records (l.filter (fun r => p r && q r)) := by
  rw [← filterFilter]
  by_cases h : (l.filter p).isEmpty
  · rw [if_pos h]
    rw [List.isEmpty_iff] at h
    rw [h]
    rfl
  · rw [if_neg h]

/-- The three branches of `get_last_assignment_date` implement one uniform
scan of the person's fairness-group records. -/
theorem gla_eq_mostRecentDate (df_history : HistoryDF) (person_name part_key : String) :
    get_last_assignment_date df_history person_name part_key
      = mostRecentDate df_history person_name (fairness_group part_key) := by
  unfold get_last_assignment_date fairness_group mostRecentDate get_unified_smm_last_date
  by_cases hsmm : SMM_SUBPARTS.contains (strip_sala_b_suffix part_key) = true
  · simp only [hsmm, if_true]
    exact scan_outer_collapse df_history _ _
  · simp only [Bool.not_eq_true] at hsmm
    simp only [hsmm, Bool.false_eq_true, if_false]
    by_cases hlect : (strip_sala_b_suffix part_key == "Lectura") = true
    · simp only [hlect, if_true]
      exact scan_outer_collapse df_history _ _
    · simp only [Bool.not_eq_true] at hlect
      simp only [hlect, Bool.false_eq_true, if_false]
      rfl

/-- Appending records of other people or other fairness-groups leaves
`mostRecentDate` unchanged. -/
theorem mostRecentDate_append (df_history extra : HistoryDF) (person_name : String)
    (g : FairnessGroup)
    (h : extra.filter (fun r => r.name == person_name && in_fairness_group g r.part) = []) :
    mostRecentDate (df_history ++ extra) person_name g
      = mostRecentDate df_history person_name g := by
  unfold mostRecentDate
  rw [List.filter_append, h, List.append_nil]

theorem mem_insDesc {x a : Cand} {l : List Cand} :
    a ∈ insDesc x l ↔ a = x ∨ a ∈ l := by
  induction l with
  | nil => simp [insDesc]
  | cons y ys ih =>
    by_cases hxy : x.score ≥ y.score
    · simp [insDesc, hxy]
    · simp [insDesc, hxy, ih]
      tauto

theorem mem_sortScoredDesc {a : Cand} {l : List Cand} :
    a ∈ sortScoredDesc l ↔ a ∈ l := by
  induction l with
  | nil => simp [sortScoredDesc]
  | cons x xs ih => simp [sortScoredDesc, mem_insDesc, ih]

theorem insDesc_pairwise {x : Cand} {l : List Cand}
    (h : List.Pairwise (fun a b => b.score ≤ a.score) l) :
    List.Pairwise (fun a b => b.score ≤ a.score) (insDesc x l) := by
  induction l with
  | nil => simp [insDesc]
  | cons y ys ih =>
    rw [List.pairwise_cons] at h
    by_cases hxy : x.score ≥ y.score
    · rw [insDesc, if_pos hxy, List.pairwise_cons]
      refine ⟨?_, List.pairwise_cons.mpr h⟩
      intro z hz
      rcases List.mem_cons.mp hz with rfl | hz'
      · exact hxy
      · exact le_trans (h.1 z hz') hxy
    · rw [insDesc, if_neg hxy, List.pairwise_cons]
      refine ⟨?_, ih h.2⟩
      intro z hz
      rcases mem_insDesc.mp hz with rfl | hz'
      · exact le_of_not_le hxy
      · exact h.1 z hz'

theorem sortScoredDesc_pairwise (l : List Cand) :
    List.Pairwise (fun a b => b.score ≤ a.score) (sortScoredDesc l) := by
  induction l with
  | nil => simp [sortScoredDesc]
  | cons x xs ih => exact insDesc_pairwise ih

theorem insDesc_filter_eq {x : Cand} {s : ℚ} (hx : x.score = s) (l : List Cand) :
    (insDesc x l).filter (fun c => decide (c.score = s))
      = x :: l.filter (fun c => decide (c.score = s)) := by
  induction l with
  | nil => simp [insDesc, List.filter_cons, hx]
  | cons y ys ih =>
    by_cases hxy : x.score ≥ y.score
    · rw [insDesc, if_pos hxy, List.filter_cons]
      simp [hx]
    · have hy : ¬ (y.score = s) := by
        intro hys
        exact hxy (ge_of_eq (hx.trans hys.symm))
      rw [insDesc, if_neg hxy, List.filter_cons, List.filter_cons]
      simp [hy, ih]

theorem insDesc_filter_ne {x : Cand} {s : ℚ} (hx : ¬ x.score = s) (l : List Cand) :
    (insDesc x l).filter (fun c => decide (c.score = s))
      = l.filter (fun c => decide (c.score = s)) := by
  induction l with
  | nil => simp [insDesc, List.filter_cons, hx]
  | cons y ys ih =>
    by_cases hxy : x.score ≥ y.score
    · rw [insDesc, if_pos hxy, List.filter_cons, List.filter_cons]
      simp [hx]
    · rw [insDesc, if_neg hxy, List.filter_cons, List.filter_cons]
      by_cases hy : y.score = s
      · simp [hy, ih]
      · simp [hy, ih]

theorem sortScoredDesc_filter (l : List Cand) (s : ℚ) :
    (sortScoredDesc l).filter (fun c => decide (c.score = s))
      = l.filter (fun c => decide (c.score = s)) := by
  induction l with
  | nil => rfl
  | cons x xs ih =>
    by_cases hx : x.score = s
    · rw [sortScoredDesc, insDesc_filter_eq hx, ih, List.filter_cons]
      simp [hx]
    · rw [sortScoredDesc, insDesc_filter_ne hx, ih, List.filter_cons]
      simp [hx]

/-- Every entry of `get_top_candidates` is a roster row that passed the
filter pipeline. -/
theorem mem_gtc {df_people : Roster} {df_history : HistoryDF} {part_key : String}
    {meeting_date : Date} {assigned_so_far : List String} {top_n : Nat}
    {required_gender : Option String} {c : Cand}
    (h : c ∈ get_top_candidates df_people df_history part_key meeting_date assigned_so_far
      top_n required_gender) :
    c.person ∈ df_people.people ∧
      passes_filters assigned_so_far required_gender (get_people_column_for_part part_key)
        c.person = true := by
  unfold get_top_candidates at h
  by_cases he : (valid_candidates df_people part_key assigned_so_far required_gender).isEmpty
  · rw [if_pos he] at h
    exact absurd h (List.not_mem_nil c)
  · rw [if_neg he] at h
    have h1 : c ∈ sortScoredDesc (scored_candidates df_people df_history part_key
        meeting_date assigned_so_far required_gender) :=
      List.take_subset _ _ h
    have h2 : c ∈ scored_candidates df_people df_history part_key meeting_date
        assigned_so_far required_gender := mem_sortScoredDesc.mp h1
    unfold scored_candidates at h2
    obtain ⟨row, hrow, heq⟩ := List.mem_map.mp h2
    have hperson : c.person = row := by rw [← heq]
    rw [hperson]
    unfold valid_candidates at hrow
    exact ⟨(List.mem_filter.mp hrow).1, (List.mem_filter.mp hrow).2⟩

/-- A name returned by the selection loop names one of the offered
candidates. -/
theorem pick_loop_some {cands : List Cand} {mc : Nat} :
    ∀ {inputs : List String} {name : String},
      (pick_loop cands mc inputs).1 = some name →
      name ∈ cands.map (fun c => c.person.hermano) := by
  intro inputs
  induction inputs with
  | nil => intro name h; simp [pick_loop] at h
  | cons inp rest ih =>
    intro name h
    rw [pick_loop] at h
    split at h
    · simp at h
    · split at h
      · split at h
        · simp only at h
          obtain ⟨c, hget, hname⟩ := Option.map_eq_some'.mp h
          exact List.mem_map.mpr ⟨c, List.get?_mem hget, hname⟩
        · exact ih h
      · exact ih h

/-- A name returned by `pick_candidate_interactively` names one of the
offered candidates. -/
theorem pick_some_mem {cands : List Cand} {top_n : Nat} {inputs : List String}
    {name : String}
    (h : (pick_candidate_interactively cands top_n inputs).1 = some name) :
    name ∈ cands.map (fun c => c.person.hermano) := by
  unfold pick_candidate_interactively at h
  by_cases he : cands.isEmpty
  · rw [if_pos he] at h; simp at h
  · rw [if_neg he] at h
    exact pick_loop_some h

/-- Unfolding of one slot step when a candidate is chosen. -/
theorem run_slots_cons_some (df_people : Roster) (mtg_date : Date) (slot : SlotReq)
    (rest : List SlotReq) (df_history : HistoryDF) (assigned : List String) (chosen : String)
    (hp : (pick_candidate_interactively
        (get_top_candidates df_people df_history slot.part_key mtg_date assigned
          slot.top_n slot.required_gender) slot.top_n slot.inputs).1 = some chosen) :
    run_slots df_people mtg_date (slot :: rest) df_history assigned
      = ⟨get_top_candidates df_people df_history slot.part_key mtg_date assigned
            slot.top_n slot.required_gender, some chosen⟩ ::
          run_slots df_people mtg_date rest
            (add_history df_history chosen slot.part_key mtg_date) (chosen :: assigned) := by
  simp only [run_slots, hp]

/-- Unfolding of one slot step when the slot is skipped. -/
theorem run_slots_cons_none (df_people : Roster) (mtg_date : Date) (slot : SlotReq)
    (rest : List SlotReq) (df_history : HistoryDF) (assigned : List String)
    (hp : (pick_candidate_interactively
        (get_top_candidates df_people df_history slot.part_key mtg_date assigned
          slot.top_n slot.required_gender) slot.top_n slot.inputs).1 = none) :
    run_slots df_people mtg_date (slot :: rest) df_history assigned
      = ⟨get_top_candidates df_people df_history slot.part_key mtg_date assigned
            slot.top_n slot.required_gender, none⟩ ::
          run_slots df_people mtg_date rest df_history assigned := by
  simp only [run_slots, hp]

/-- Once a name is in the excluded set, it appears in no later slot's
candidate list and is never chosen again. -/
theorem run_slots_excl (df_people : Roster) (mtg_date : Date) (name : String) :
    ∀ (slots : List SlotReq) (df_history : HistoryDF) (assigned : List String),
      assigned.contains name = true →
      ∀ (j : Nat) (sj : SlotResult),
        (run_slots df_people mtg_date slots df_history assigned)[j]? = some sj →
        name ∉ sj.candidates.map (fun c => c.person.hermano) ∧ sj.chosen ≠ some name := by
  intro slots
  induction slots with
  | nil =>
    intro df_history assigned hmem j sj hj
    simp [run_slots] at hj
  | cons slot rest ih =>
    intro df_history assigned hmem j sj hj
    have hnotin : name ∉ (get_top_candidates df_people df_history slot.part_key mtg_date
        assigned slot.top_n slot.required_gender).map (fun c => c.person.hermano) := by
      intro habs
      obtain ⟨c, hc, hcname⟩ := List.mem_map.mp habs
      have hpass := (mem_gtc hc).2
      unfold passes_filters at hpass
      simp only [Bool.and_eq_true, Bool.not_eq_true'] at hpass
      have hcontains := hpass.1.1.2
      rw [hcname, hmem] at hcontains
      exact Bool.noConfusion hcontains
    cases hp : (pick_candidate_interactively
        (get_top_candidates df_people df_history slot.part_key mtg_date assigned
          slot.top_n slot.required_gender) slot.top_n slot.inputs).1 with
    | none =>
      rw [run_slots_cons_none df_people mtg_date slot rest df_history assigned hp] at hj
      cases j with
      | zero =>
        simp only [List.getElem?_cons_zero, Option.some.injEq] at hj
        subst hj
        exact ⟨hnotin, by simp⟩
      | succ j' =>
        rw [List.getElem?_cons_succ] at hj
        exact ih df_history assigned hmem j' sj hj
    | some chosen =>
      rw [run_slots_cons_some df_people mtg_date slot rest df_history assigned chosen hp] at hj
      cases j with
      | zero =>
        simp only [List.getElem?_cons_zero, Option.some.injEq] at hj
        subst hj
        refine ⟨hnotin, ?_⟩
        intro habs
        have hchname : chosen = name := Option.some.inj habs
        subst hchname
        exact hnotin (pick_some_mem hp)
      | succ j' =>
        rw [List.getElem?_cons_succ] at hj
        refine ih _ _ ?_ j' sj hj
        simp only [List.contains_cons]
        rw [hmem]
        simp

/-- Pairwise exclusivity along one date's slot loop: a name chosen at an
earlier slot is absent from every later slot's candidate list and is never
chosen again, for any starting exclusion set. -/
theorem run_slots_pair (df_people : Roster) (mtg_date : Date) (name : String) :
    ∀ (slots : List SlotReq) (df_history : HistoryDF) (assigned : List String)
      (i j : Nat) (si sj : SlotResult),
      i < j →
      (run_slots df_people mtg_date slots df_history assigned)[i]? = some si →
      (run_slots df_people mtg_date slots df_history assigned)[j]? = some sj →
      si.chosen = some name →
      name ∉ sj.candidates.map (fun c => c.person.hermano) ∧ sj.chosen ≠ some name := by
  intro slots
  induction slots with
  | nil =>
    intro df_history assigned i j si sj hij hi hj hch
    simp [run_slots] at hi
  | cons slot rest ih =>
    intro df_history assigned i j si sj hij hi hj hch
    cases hp : (pick_candidate_interactively
        (get_top_candidates df_people df_history slot.part_key mtg_date assigned
          slot.top_n slot.required_gender) slot.top_n slot.inputs).1 with
    | none =>
      rw [run_slots_cons_none df_people mtg_date slot rest df_history assigned hp] at hi hj
      cases i with
      | zero =>
        simp only [List.getElem?_cons_zero, Option.some.injEq] at hi
        subst hi
        simp at hch
      | succ i' =>
        cases j with
        | zero => omega
        | succ j' =>
          rw [List.getElem?_cons_succ] at hi hj
          exact ih df_history assigned i' j' si sj (by omega) hi hj hch
    | some chosen =>
      rw [run_slots_cons_some df_people mtg_date slot rest df_history assigned chosen hp]
        at hi hj
      cases i with
      | zero =>
        simp only [List.getElem?_cons_zero, Option.some.injEq] at hi
        subst hi
        have hchname : chosen = name := Option.some.inj hch
        subst hchname
        cases j with
        | zero => omega
        | succ j' =>
          rw [List.getElem?_cons_succ] at hj
          refine run_slots_excl df_people mtg_date chosen rest _ _ ?_ j' sj hj
          simp [List.contains_cons]
      | succ i' =>
        cases j with
        | zero => omega
        | succ j' =>
          rw [List.getElem?_cons_succ] at hi hj
          exact ih _ _ i' j' si sj (by omega) hi hj hch

/-- Soft-failure behaviour of the ledger scan: it returns the sentinel or
the parsed date of one of the scanned records; it never aborts. -/
theorem scan_records_sound (sub : List HistoryRecord) :
    scan_records sub = sentinel_date
    ∨ ∃ r, r ∈ sub ∧ parse_date_str r.assignmentDate = some (scan_records sub) := by
  by_cases he : sub.isEmpty
  · left
    unfold scan_records
    rw [if_pos he]
  · cases hl : latestDateStr (sub.map (fun r => r.assignmentDate)) with
    | none =>
      left
      unfold scan_records
      rw [if_neg he, hl]
    | some top =>
      cases hp : parse_date_str top with
      | none =>
        left
        unfold scan_records
        rw [if_neg he, hl]
        simp [hp]
      | some d =>
        right
        have hscan : scan_records sub = d := by
          unfold scan_records
          rw [if_neg he, hl]
          simp [hp]
        obtain ⟨r, hr, hrd⟩ := List.mem_map.mp (latestDateStr_mem hl)
        refine ⟨r, hr, ?_⟩
        rw [hrd, hp, hscan]

/-! ### Claim theorems -/

/-- Claim C1 (code-bug evidence).  `get_last_assignment_date` selects the
record whose raw date *string* is lexicographically greatest, not the
maximum date: for Carlos's Scenario-B ledger ("Discurso" on 2024-02-20,
"Haga Revisitas" on 2024-03-05, both SMM, both written in the program's own
`%d/%m/%Y` encoding) it returns 2024-02-20 — the 3-week-ago date relative
to the 2024-03-12 meeting — while the spec-side maximum over the same
fairness-group records is the 1-week-ago date 2024-03-05. -/
theorem C1_unified_last_date_not_max :
    get_last_assignment_date carlos_history "Carlos" "Haga Revisitas" = ⟨2024, 2, 20⟩
    ∧ specMostRecentDate carlos_history "Carlos" FairnessGroup.smm = ⟨2024, 3, 5⟩
    ∧ Date.toDays ⟨2024, 3, 12⟩ - Date.toDays ⟨2024, 3, 5⟩ = 7
    ∧ Date.toDays ⟨2024, 3, 12⟩ - Date.toDays ⟨2024, 2, 20⟩ = 21
    ∧ (⟨2024, 2, 20⟩ : Date) ≠ ⟨2024, 3, 5⟩ := by
  refine ⟨by decide, by decide, by decide, by decide, by decide⟩

/-- Counterexample to claim C2 as stated: Blanca has no explicit weight
for "Presidencia" (her cell in the *present* "Presidencia Mod" column is
blank, which pandas reads as NaN), yet her modifier is NaN — not 1.0 — and
her score is NaN, not `weeks × 1.0`. -/
theorem C2_blank_weight_counterexample :
    blank_mod_roster.modCols.contains ("Presidencia" ++ " Mod") = true
    ∧ blank_mod_person.modCell ("Presidencia" ++ " Mod") = none
    ∧ modifier_float blank_mod_roster blank_mod_person
        (get_people_column_for_part "Presidencia") = PyFloat.nan
    ∧ (compute_score_float blank_mod_roster [] blank_mod_person "Presidencia"
        ⟨2024, 3, 12⟩).1 = PyFloat.nan
    ∧ PyFloat.nan
        ≠ PyFloat.num (weeks_since_assignment
            (get_last_assignment_date [] "Blanca" "Presidencia") ⟨2024, 3, 12⟩ * 1) := by
  refine ⟨by decide, rfl, by decide, by decide, ?_⟩
  intro h
  exact PyFloat.noConfusion h

/-- Claim C2 as amended: the fairness score equals
`weeksBetween(mostRecentDate(person, fairnessGroup(role)), meetingDate) ×
modifier(person, eligibilityColumn(role))`, where the modifier is 1.0 only
when the sheet lacks the `<column> Mod` column entirely; when the column is
present but the person's own cell is blank, the modifier — and hence the
score — is NaN, not 1.0. -/
theorem C2_score_formula_nan (df_people : RosterNaN) (df_history : HistoryDF)
    (row : PersonNaN) (part_key : String) (meeting_date : Date) :
    (compute_score_float df_people df_history row part_key meeting_date).1
      = PyFloat.mul
          (PyFloat.num (weeks_since_assignment
            (mostRecentDate df_history row.hermano (fairness_group part_key)) meeting_date))
          (modifier_float df_people row (get_people_column_for_part part_key))
    ∧ (∀ col_name : String,
        df_people.modCols.contains (col_name ++ " Mod") = false →
        modifier_float df_people row col_name = PyFloat.num 1)
    ∧ (∀ col_name : String,
        df_people.modCols.contains (col_name ++ " Mod") = true →
        row.modCell (col_name ++ " Mod") = none →
        modifier_float df_people row col_name = PyFloat.nan) := by
  refine ⟨?_, ?_, ?_⟩
  · simp only [compute_score_float]
    rw [gla_eq_mostRecentDate]
  · intro col_name hcol
    unfold modifier_float
    simp only [hcol, Bool.false_eq_true, if_false]
  · intro col_name hcol hcell
    unfold modifier_float
    rw [if_pos hcol, hcell]

/-- Witness for C2 as amended: Blanca's modifier is 1.0 on the sheet with
no weight columns, and NaN on the sheet whose "Presidencia Mod" column is
present while her cell is blank. -/
theorem C2_score_formula_nan_witness :
    modifier_float plain_nan_roster blank_mod_person "Presidencia" = PyFloat.num 1
    ∧ modifier_float blank_mod_roster blank_mod_person "Presidencia" = PyFloat.nan :=
  ⟨(C2_score_formula_nan plain_nan_roster [] blank_mod_person "Presidencia"
      ⟨2024, 3, 12⟩).2.1 "Presidencia" (by decide),
   (C2_score_formula_nan blank_mod_roster [] blank_mod_person "Presidencia"
      ⟨2024, 3, 12⟩).2.2 "Presidencia" (by decide) rfl⟩

/-- Claim C3 (code-bug evidence).  `mostRecentDate` is not monotone under
`add_history`: appending the program's own `%d/%m/%Y` record for 2024-02-20
to a ledger whose record is dated 2024-03-05 makes the reported last date
go *backwards*, because "20/02/2024" is lexicographically greater than
"05/03/2024". -/
theorem C3_append_monotonicity_violated :
    get_last_assignment_date h3_history "P" "Presidencia" = ⟨2024, 3, 5⟩
    ∧ get_last_assignment_date (add_history h3_history "P" "Presidencia" ⟨2024, 2, 20⟩)
        "P" "Presidencia" = ⟨2024, 2, 20⟩
    ∧ Date.toDays ⟨2024, 2, 20⟩ < Date.toDays ⟨2024, 3, 5⟩ := by
  refine ⟨by decide, by decide, by decide⟩

/-- Claim C4: `get_top_candidates` returns at most `top_n` entries, in
descending score order; every entry passed the activation, exclusion,
gender and eligibility checks; and an empty filtered set yields the empty
ranking rather than an error. -/
theorem C4_rank_filters_and_order (df_people : Roster) (df_history : HistoryDF)
    (part_key : String) (meeting_date : Date) (assigned_so_far : List String)
    (top_n : Nat) (required_gender : Option String) :
    (get_top_candidates df_people df_history part_key meeting_date assigned_so_far top_n
        required_gender).length ≤ top_n
    ∧ List.Pairwise (fun a b => b.score ≤ a.score)
        (get_top_candidates df_people df_history part_key meeting_date assigned_so_far top_n
          required_gender)
    ∧ (∀ c ∈ get_top_candidates df_people df_history part_key meeting_date assigned_so_far
          top_n required_gender,
        active_ok c.person = true
        ∧ assigned_so_far.contains c.person.hermano = false
        ∧ gender_ok required_gender c.person = true
        ∧ elig_ok (get_people_column_for_part part_key) c.person = true)
    ∧ ((valid_candidates df_people part_key assigned_so_far required_gender).isEmpty = true →
        get_top_candidates df_people df_history part_key meeting_date assigned_so_far top_n
          required_gender = []) := by
  refine ⟨?_, ?_, ?_, ?_⟩
  · unfold get_top_candidates
    by_cases he : (valid_candidates df_people part_key assigned_so_far required_gender).isEmpty
    · rw [if_pos he]
      simp
    · rw [if_neg he]
      exact List.length_take_le _ _
  · unfold get_top_candidates
    by_cases he : (valid_candidates df_people part_key assigned_so_far required_gender).isEmpty
    · rw [if_pos he]
      simp
    · rw [if_neg he]
      exact List.Pairwise.sublist (List.take_sublist _ _) (sortScoredDesc_pairwise _)
  · intro c hc
    have h := (mem_gtc hc).2
    unfold passes_filters at h
    simp only [Bool.and_eq_true, Bool.not_eq_true'] at h
    exact ⟨h.1.1.1, h.1.1.2, h.1.2, h.2⟩
  · intro he
    unfold get_top_candidates
    rw [if_pos he]

/-- Witness for C4 at a one-person roster (Ana is active and eligible, the
exclusion set is empty, and no gender is required). -/
theorem C4_rank_filters_and_order_witness :
    (get_top_candidates wit_roster [] "Presidencia" ⟨1900, 1, 8⟩ [] 3 none).length ≤ 3
    ∧ active_ok wit4_cand.person = true
    ∧ List.contains ([] : List String) wit4_cand.person.hermano = false
    ∧ gender_ok none wit4_cand.person = true
    ∧ elig_ok (get_people_column_for_part "Presidencia") wit4_cand.person = true := by
  have h := C4_rank_filters_and_order wit_roster [] "Presidencia" ⟨1900, 1, 8⟩ [] 3 none
  have hmem : wit4_cand ∈ get_top_candidates wit_roster [] "Presidencia" ⟨1900, 1, 8⟩ [] 3 none := by
    have heq : get_top_candidates wit_roster [] "Presidencia" ⟨1900, 1, 8⟩ [] 3 none
        = [wit4_cand] := rfl
    rw [heq]
    exact List.mem_cons_self _ _
  exact ⟨h.1, h.2.2.1 wit4_cand hmem⟩

/-- Claim C5: once a person is chosen for a slot of a meeting date, the
name is in `assigned_today` and therefore never occurs among the ranked
candidates of any later slot of that date, and is never chosen again that
date. -/
theorem C5_same_day_exclusivity (df_people : Roster) (mtg_date : Date)
    (slots : List SlotReq) (df_history : HistoryDF) (i j : Nat) (si sj : SlotResult)
    (name : String) (hij : i < j)
    (hi : (run_slots df_people mtg_date slots df_history [])[i]? = some si)
    (hj : (run_slots df_people mtg_date slots df_history [])[j]? = some sj)
    (hch : si.chosen = some name) :
    name ∉ sj.candidates.map (fun c => c.person.hermano) ∧ sj.chosen ≠ some name :=
  run_slots_pair df_people mtg_date name slots df_history [] i j si sj hij hi hj hch

/-- Witness for C5: with one eligible person and two identical slots, Ana
is chosen at slot 0 and the second slot's candidate list is empty. -/
theorem C5_same_day_exclusivity_witness :
    "Ana" ∉ (SlotResult.mk [] none).candidates.map (fun c => c.person.hermano)
    ∧ (SlotResult.mk [] none).chosen ≠ some "Ana" :=
  C5_same_day_exclusivity wit_roster ⟨1900, 1, 8⟩ [wit_slot, wit_slot] [] 0 1
    (SlotResult.mk [wit4_cand] (some "Ana")) (SlotResult.mk [] none) "Ana"
    (by decide) rfl rfl rfl

/-- Counterexample to claim C6 as stated: for a person whose
"Presidencia Mod" weight is negative, the fairness score strictly
*decreases* as the meeting date moves later (never-assigned person, dates
one week apart). -/
theorem C6_monotone_counterexample :
    Date.toDays ⟨2024, 3, 5⟩ < Date.toDays ⟨2024, 3, 12⟩
    ∧ (compute_score_and_lastdate neg_roster [] neg_person "Presidencia" ⟨2024, 3, 12⟩).1
      < (compute_score_and_lastdate neg_roster [] neg_person "Presidencia" ⟨2024, 3, 5⟩).1 := by
  constructor
  · decide
  · have hgla : get_last_assignment_date [] "Neg" "Presidencia" = sentinel_date := by decide
    have hmod : modifier neg_roster neg_person (get_people_column_for_part "Presidencia")
        = -1 := by
      unfold modifier neg_roster neg_person
      norm_num [get_people_column_for_part]
      decide
    simp only [compute_score_and_lastdate]
    rw [show neg_person.hermano = "Neg" from rfl, hgla, hmod]
    unfold weeks_since_assignment
    rw [show Date.toDays ⟨2024, 3, 12⟩ = 738957 from by decide,
        show Date.toDays ⟨2024, 3, 5⟩ = 738950 from by decide,
        show Date.toDays sentinel_date = 693596 from by decide]
    norm_num

/-- Claim C6 as amended: the fairness score is monotone in elapsed time
for persons whose effective modifier is nonnegative.  "No intervening
assignment of the person to the role's fairness-group" is expressed by
letting the ledger grow by arbitrary records (`extra`) none of which is a
record of this person in this role's fairness-group. -/
theorem C6_monotone_nonneg_modifier (df_people : Roster) (df_history extra : HistoryDF)
    (row : Person) (part_key : String) (d1 d2 : Date)
    (hno : extra.filter (fun r => r.name == row.hermano
        && in_fairness_group (fairness_group part_key) r.part) = [])
    (hd : Date.toDays d1 ≤ Date.toDays d2)
    (hm : 0 ≤ modifier df_people row (get_people_column_for_part part_key)) :
    (compute_score_and_lastdate df_people df_history row part_key d1).1
      ≤ (compute_score_and_lastdate df_people (df_history ++ extra) row part_key d2).1 := by
  simp only [compute_score_and_lastdate]
  rw [gla_eq_mostRecentDate, gla_eq_mostRecentDate,
      mostRecentDate_append df_history extra row.hermano (fairness_group part_key) hno]
  apply mul_le_mul_of_nonneg_right _ hm
  unfold weeks_since_assignment
  refine (div_le_div_iff_of_pos_right (by norm_num : (0 : ℚ) < 7)).mpr ?_
  exact Int.cast_le.mpr (sub_le_sub_right (by exact_mod_cast hd) _)

/-- Witness for C6 as amended: Ana's score (modifier 1) one week later,
after a ledger append concerning a different person. -/
theorem C6_monotone_nonneg_modifier_witness :
    ([⟨"Otro", "Presidencia", "05/03/2024"⟩] : HistoryDF).filter
        (fun r => r.name == ana_person.hermano
          && in_fairness_group (fairness_group "Presidencia") r.part) = []
    ∧ Date.toDays ⟨2024, 3, 5⟩ ≤ Date.toDays ⟨2024, 3, 12⟩
    ∧ 0 ≤ modifier wit_roster ana_person (get_people_column_for_part "Presidencia")
    ∧ (compute_score_and_lastdate wit_roster [] ana_person "Presidencia" ⟨2024, 3, 5⟩).1
      ≤ (compute_score_and_lastdate wit_roster
          ([] ++ [⟨"Otro", "Presidencia", "05/03/2024"⟩]) ana_person "Presidencia"
          ⟨2024, 3, 12⟩).1 :=
  ⟨by decide, by decide, by decide,
   C6_monotone_nonneg_modifier wit_roster [] [⟨"Otro", "Presidencia", "05/03/2024"⟩]
      ana_person "Presidencia" ⟨2024, 3, 5⟩ ⟨2024, 3, 12⟩ (by decide) (by decide) (by decide)⟩

/-- Counterexample to claim C7 as stated: when the lexicographically
greatest date string of the person's records is unparseable, the code
returns the sentinel — not the maximum over the remaining parseable
records (here 2024-03-05). -/
theorem C7_unparseable_counterexample :
    parse_date_str "zz" = none
    ∧ get_last_assignment_date h7_history "P" "Presidencia" = sentinel_date
    ∧ specMostRecentDate h7_history "P" (FairnessGroup.direct "Presidencia") = ⟨2024, 3, 5⟩
    ∧ sentinel_date ≠ (⟨2024, 3, 5⟩ : Date) := by
  refine ⟨by decide, by decide, by decide, by decide⟩

/-- Claim C7 as amended: an unparseable assignment date is never fatal —
`parse_date_str` totally returns `none` on unrecognized encodings, and
`get_last_assignment_date` always returns either the far-past sentinel or
the parsed date of one of the person's own records (when the selected
most-recent record fails to parse, the result is the sentinel, not the
maximum of the remaining parseable records). -/
theorem C7_parse_soft_failure (df_history : HistoryDF) (person_name part_key : String) :
    get_last_assignment_date df_history person_name part_key = sentinel_date
    ∨ ∃ r, r ∈ df_history ∧ r.name = person_name
        ∧ parse_date_str r.assignmentDate
          = some (get_last_assignment_date df_history person_name part_key) := by
  rw [gla_eq_mostRecentDate]
  unfold mostRecentDate
  rcases scan_records_sound (df_history.filter
      (fun r => r.name == person_name
        && in_fairness_group (fairness_group part_key) r.part)) with h | ⟨r, hr, hpr⟩
  · exact Or.inl h
  · right
    have hf := List.mem_filter.mp hr
    refine ⟨r, hf.1, ?_, hpr⟩
    have hb : (r.name == person_name) = true := by
      have h2 := hf.2
      simp only [Bool.and_eq_true] at h2
      exact h2.1
    exact eq_of_beq hb

/-- Claim C8: ranking is deterministic (same inputs, same output), and
equal-scored candidates appear in roster iteration order — for each score
value, the ranked output's entries of that score form a sublist of the
roster-ordered scored list's entries of that score (Python's stable sort
with `reverse=True`). -/
theorem C8_deterministic_stable_rank (df_people : Roster) (df_history : HistoryDF)
    (part_key : String) (meeting_date : Date) (assigned_so_far : List String)
    (top_n : Nat) (required_gender : Option String) :
    get_top_candidates df_people df_history part_key meeting_date assigned_so_far top_n
        required_gender
      = get_top_candidates df_people df_history part_key meeting_date assigned_so_far top_n
          required_gender
    ∧ ∀ s : ℚ,
        List.Sublist
          ((get_top_candidates df_people df_history part_key meeting_date assigned_so_far
              top_n required_gender).filter (fun c => decide (c.score = s)))
          ((scored_candidates df_people df_history part_key meeting_date assigned_so_far
              required_gender).filter (fun c => decide (c.score = s))) := by
  refine ⟨rfl, fun s => ?_⟩
  unfold get_top_candidates
  by_cases he : (valid_candidates df_people part_key assigned_so_far required_gender).isEmpty
  · rw [if_pos he]
    simp only [List.filter_nil]
    exact List.nil_sublist _
  · rw [if_neg he]
    have h1 := List.Sublist.filter (fun c => decide (c.score = s))
        (List.take_sublist top_n (sortScoredDesc (scored_candidates df_people df_history
          part_key meeting_date assigned_so_far required_gender)))
    rw [sortScoredDesc_filter] at h1
    exact h1

/-- Counterexample to claim C9 as stated: the raw key "Estudiante Sala B"
(used by the orchestrator for generic secondary-room student slots) is in
no configured specialization or rotation group, yet its eligibility-column
key is "Estudiante", not the raw key itself. -/
theorem C9_identity_fallback_counterexample :
    get_people_column_for_part "Estudiante Sala B" = "Estudiante"
    ∧ "Estudiante" ≠ "Estudiante Sala B"
    ∧ SPECIALIZED_PARTS.contains "Estudiante Sala B" = false
    ∧ SMM_SUBPARTS.contains "Estudiante Sala B" = false := by
  refine ⟨by decide, by decide, by decide, by decide⟩

/-- Claim C9 as amended: for a raw key whose *suffix-stripped base* is in
no configured group, the normalizer is pure and total; the eligibility
column is the suffix-stripped key, the fairness-group is the singleton
group of the raw key itself, and a key without the " Sala B" suffix maps
to itself in both outputs. -/
theorem C9_normalizer_fallback (part_key : String)
    (h : SPECIALIZED_PARTS.contains (strip_sala_b_suffix part_key) = false) :
    get_people_column_for_part part_key = strip_sala_b_suffix part_key
    ∧ fairness_group part_key = FairnessGroup.direct part_key
    ∧ (∀ (df_history : HistoryDF) (person_name : String),
        get_last_assignment_date df_history person_name part_key
          = mostRecentDate df_history person_name (FairnessGroup.direct part_key))
    ∧ (strEndsWithSuffix part_key " Sala B" = false →
        get_people_column_for_part part_key = part_key) := by
  have h' := h
  unfold SPECIALIZED_PARTS at h'
  rw [List.contains_cons] at h'
  have hor := Bool.or_eq_false_iff.mp h'
  have hgpc : get_people_column_for_part part_key = strip_sala_b_suffix part_key := by
    unfold get_people_column_for_part
    simp only [h, Bool.false_eq_true, if_false]
  have hfg : fairness_group part_key = FairnessGroup.direct part_key := by
    unfold fairness_group
    simp only [hor.1, hor.2, Bool.false_eq_true, if_false]
  refine ⟨hgpc, hfg, ?_, ?_⟩
  · intro df_history person_name
    rw [gla_eq_mostRecentDate, hfg]
  · intro hend
    have hstrip : strip_sala_b_suffix part_key = part_key := by
      unfold strip_sala_b_suffix
      simp only [hend, Bool.false_eq_true, if_false]
    rw [hgpc, hstrip]

/-- Witness for C9 as amended at the raw key "Presidencia". -/
theorem C9_normalizer_fallback_witness :
    get_people_column_for_part "Presidencia" = strip_sala_b_suffix "Presidencia"
    ∧ fairness_group "Presidencia" = FairnessGroup.direct "Presidencia" :=
  ⟨(C9_normalizer_fallback "Presidencia" (by decide)).1,
   (C9_normalizer_fallback "Presidencia" (by decide)).2.1⟩

/-- Claim C10: an empty ranked candidate list makes the selection protocol
return "no selection" before consuming any operator input (no prompt), and
the orchestrator then writes no ledger record, leaves the exclusion set
unchanged, and leaves the slot's output blank. -/
theorem C10_empty_candidates_skip (top_n : Nat) (inputs : List String) (df_people : Roster)
    (mtg_date : Date) (slot : SlotReq) (rest : List SlotReq) (df_history : HistoryDF)
    (assigned_today : List String) :
    pick_candidate_interactively [] top_n inputs = (none, 0)
    ∧ (get_top_candidates df_people df_history slot.part_key mtg_date assigned_today
          slot.top_n slot.required_gender = [] →
        run_slots df_people mtg_date (slot :: rest) df_history assigned_today
          = ⟨[], none⟩ :: run_slots df_people mtg_date rest df_history assigned_today) := by
  constructor
  · rfl
  · intro h
    have hp : (pick_candidate_interactively
        (get_top_candidates df_people df_history slot.part_key mtg_date assigned_today
          slot.top_n slot.required_gender) slot.top_n slot.inputs).1 = none := by
      rw [h]
      rfl
    rw [run_slots_cons_none df_people mtg_date slot rest df_history assigned_today hp, h]

/-- Witness for C10: one slot over an empty roster resolves to a blank
cell with no ledger write. -/
theorem C10_empty_candidates_skip_witness :
    run_slots empty_roster ⟨2024, 3, 12⟩ [wit_slot] [] [] = [SlotResult.mk [] none] :=
  (C10_empty_candidates_skip 3 [] empty_roster ⟨2024, 3, 12⟩ wit_slot [] [] []).2 rfl
